import Mathlib

/-!
Shallow embedding of the PNGme chunk/container core (src/chunk_type.rs,
src/chunk.rs, src/png.rs) and proofs about it.

Bytes are modelled as `Nat` values; every byte coming out of a `&[u8]`
is `< 256`, and theorems that need this state it as a hypothesis.
Fallible Rust paths (`TryFrom`, `?`) are modelled with `Except`; a Rust
panic (e.g. an out-of-bounds `split_at`) is modelled by a dedicated
error constructor that is documented as a panic, not an error return.
-/

set_option maxRecDepth 8000

deriving instance DecidableEq for Except

/-- `u8::is_ascii`: the byte is in `0..=127`. -/
def u8IsAscii (b : Nat) : Bool := b ≤ 127

/-- `u8::is_ascii_alphabetic`: the byte is in `b'A'..=b'Z'` or `b'a'..=b'z'`. -/
def u8IsAsciiAlphabetic (b : Nat) : Bool :=
  (65 ≤ b && b ≤ 90) || (97 ≤ b && b ≤ 122)

/-- Big-endian byte encoding of `n` on `w` bytes, as in Rust's
`to_be_bytes` (`w = 4` for `u32`, `w = 8` for `usize` on a 64-bit
target): byte `i` is `n / 2^(8*(w-1-i)) % 256`. -/
def beBytes (w n : Nat) : List Nat :=
  (List.range w).map (fun i => n / 2 ^ (8 * (w - 1 - i)) % 256)

/-- Big-endian byte decoding, as in `u32::from_be_bytes`. -/
def fromBeBytes (l : List Nat) : Nat :=
  l.foldl (fun acc b => acc * 256 + b) 0

/-- One step of the bitwise (table-less) reflected CRC-32: process the
low bit, shifting right and conditionally xoring the reflected ISO-HDLC
polynomial `0xEDB88320`. -/
def crc32Step (c : Nat) : Nat :=
  if c &&& 1 == 1 then (c >>> 1) ^^^ 0xEDB88320 else c >>> 1

/-- Fold one input byte into the running CRC-32 state: xor the byte in,
then run `crc32Step` once per bit (`for _ in 0..8`). -/
def crc32Update (c b : Nat) : Nat :=
  crc32Step (crc32Step (crc32Step (crc32Step
    (crc32Step (crc32Step (crc32Step (crc32Step (c ^^^ b))))))))

/-- CRC-32 with the `crc::CRC_32_ISO_HDLC` parameters used by
`Chunk::crc` (poly `0x04C11DB7` reflected = `0xEDB88320`, init
`0xFFFFFFFF`, refin/refout, xorout `0xFFFFFFFF`). The `crc` crate is an
external dependency; this is the standard definition of that algorithm,
which the spec pins down as "ISO-HDLC / CRC-32/PNG". -/
def crc32 (data : List Nat) : Nat :=
  0xFFFFFFFF ^^^ data.foldl crc32Update 0xFFFFFFFF

/-- Errors of the two `ChunkType` constructors (src/chunk_type.rs).
The source uses boxed strings; the spec's taxonomy names them
`InvalidLength`, `InvalidCharacter`, `InvalidByte`. -/
inductive ChunkTypeError where
  | invalidLength : ChunkTypeError
  | invalidCharacter : ChunkTypeError
  | invalidByte : ChunkTypeError
deriving DecidableEq, Repr

/-- `ChunkType` (src/chunk_type.rs): a 4-byte tag. The `[u8; 4]` field
is modelled as a `List Nat`; every value built by a constructor has
length 4 and bytes `< 256`. -/
structure ChunkType where
  bytes : List Nat
deriving DecidableEq, Repr

/-- `TryFrom<[u8; 4]> for ChunkType`: succeeds iff all four bytes are
ASCII (the source checks `value.is_ascii()` only, despite its error
message mentioning the alphabetic ranges). -/
def chunkTypeTryFromBytes (value : List Nat) : Except ChunkTypeError ChunkType :=
  if value.all u8IsAscii then .ok ⟨value⟩ else .error .invalidByte

/-- `TryFrom<String> for ChunkType` (also `FromStr`): the input string's
bytes. Rejects byte length ≠ 4, then rejects any non-alphabetic byte
(the source loop returns on the first offender; the resulting value and
error are the same as this all-or-nothing form), else stores the bytes. -/
def chunkTypeTryFromString (value : List Nat) : Except ChunkTypeError ChunkType :=
  if value.length > 4 || value.length < 4 then .error .invalidLength
  else if value.all u8IsAsciiAlphabetic then .ok ⟨value⟩
  else .error .invalidCharacter

/-- `Display for ChunkType`: `String::from_utf8(bytes).unwrap()`.
`from_utf8` is modelled on the ASCII range — there it renders each byte
as one character, i.e. the identity on the byte sequence — which covers
every constructible `ChunkType`; the `unwrap` panic on non-UTF-8 bytes
is `none`. -/
def chunkTypeDisplay (t : ChunkType) : Option (List Nat) :=
  if t.bytes.all u8IsAscii then some t.bytes else none

/-- `(b >> 5u8) & 1u8`, the bit the property queries test. -/
def fifthBit (b : Nat) : Nat := (b >>> 5) &&& 1

/-- `ChunkType::is_critical`: bit 5 of byte 0 clear. -/
def ChunkType.is_critical (t : ChunkType) : Bool :=
  fifthBit (t.bytes.getD 0 0) == 0

/-- `ChunkType::is_public`: bit 5 of byte 1 clear. -/
def ChunkType.is_public (t : ChunkType) : Bool :=
  fifthBit (t.bytes.getD 1 0) == 0

/-- `ChunkType::is_reserved_bit_valid`: bit 5 of byte 2 clear. -/
def ChunkType.is_reserved_bit_valid (t : ChunkType) : Bool :=
  fifthBit (t.bytes.getD 2 0) == 0

/-- `ChunkType::is_safe_to_copy`: bit 5 of byte 3 set. -/
def ChunkType.is_safe_to_copy (t : ChunkType) : Bool :=
  fifthBit (t.bytes.getD 3 0) == 1

/-- `ChunkType::is_valid`: the source loops over the bytes returning
`false` at the first non-ASCII one and otherwise returns
`is_reserved_bit_valid`, i.e. this conjunction. -/
def ChunkType.is_valid (t : ChunkType) : Bool :=
  t.bytes.all u8IsAscii && t.is_reserved_bit_valid

/-- Errors of `TryFrom<&[u8]> for Chunk` (src/chunk.rs). The source uses
boxed strings; the spec's taxonomy names the first `TooShort` and the
last `ChecksumMismatch { expected, actual }`. `sliceLen` is the
`TryFromSliceError` propagated by `crc_bytes.try_into()?` when the bytes
after the payload are not exactly 4. `panicSplitAt` is NOT an error
return: it marks the point where the Rust code panics, because
`value.split_at(length)` aborts when `length` exceeds the slice length. -/
inductive ChunkError where
  | tooShort : ChunkError
  | invalidByte : ChunkError
  | typeNotValid : ChunkError
  | panicSplitAt : ChunkError
  | sliceLen : ChunkError
  | crcMismatch (expected actual : Nat) : ChunkError
deriving DecidableEq, Repr

/-- `Chunk` (src/chunk.rs): stored length field (`u32`), type, payload
bytes and stored crc field (`u32`). -/
structure Chunk where
  length : Nat
  type_ : ChunkType
  data : List Nat
  crc : Nat
deriving DecidableEq, Repr

/-- `Chunk::crc`: CRC-32 of the 4 type bytes followed by the payload. -/
def Chunk.crcFn (c : Chunk) : Nat := crc32 (c.type_.bytes ++ c.data)

/-- `Chunk::new`: builds `bytes = type.bytes ++ data`, stores
`bytes.len() as u32` in the length field (note: `bytes` includes the 4
type bytes), and stores the computed crc. -/
def Chunk.new (chunk_type : ChunkType) (data : List Nat) : Chunk :=
  let bytes := chunk_type.bytes ++ data
  { length := bytes.length % 2 ^ 32
    type_ := chunk_type
    data := data
    crc := crc32 bytes }

/-- `Chunk::length` accessor: `self.data.len() as u32` (recomputed from
the payload, not the stored field). Named `lengthGetter` because the
struct field already uses the name `length`. -/
def Chunk.lengthGetter (c : Chunk) : Nat := c.data.length % 2 ^ 32

/-- `Chunk::as_bytes`: `self.data.len().to_be_bytes()` is a `usize`
(8 bytes big-endian on a 64-bit target), then the 4 type bytes, the
payload, and the recomputed crc as 4 bytes big-endian. -/
def Chunk.as_bytes (c : Chunk) : List Nat :=
  beBytes 8 c.data.length ++ c.type_.bytes ++ c.data ++ beBytes 4 c.crcFn

/-- `TryFrom<&[u8]> for Chunk`: rejects inputs shorter than 12 bytes,
splits off 4 length bytes then 4 type bytes, builds and validates the
`ChunkType`, decodes the big-endian length, splits the payload at that
length (a Rust panic, `panicSplitAt`, when it exceeds the remaining
bytes), requires exactly 4 crc bytes, and compares the decoded crc with
the recomputed one. -/
def chunkTryFrom (value : List Nat) : Except ChunkError Chunk :=
  if value.length < 12 then .error .tooShort
  else
    let data_len_bytes := value.take 4
    let v1 := value.drop 4
    let chunk_type_bytes := v1.take 4
    let v2 := v1.drop 4
    match chunkTypeTryFromBytes chunk_type_bytes with
    | .error _ => .error .invalidByte
    | .ok type_ =>
      if !type_.is_valid then .error .typeNotValid
      else
        let length := fromBeBytes data_len_bytes
        if v2.length < length then .error .panicSplitAt
        else
          let data_bytes := v2.take length
          let crc_bytes := v2.drop length
          if crc_bytes.length ≠ 4 then .error .sliceLen
          else
            let expected_crc := fromBeBytes crc_bytes
            let crc_ := crc32 (type_.bytes ++ data_bytes)
            if expected_crc ≠ crc_ then .error (.crcMismatch expected_crc crc_)
            else .ok { length := length, type_ := type_, data := data_bytes
                       crc := expected_crc }

/-- Errors of `TryFrom<&[u8]> for Png` (src/png.rs): input shorter than
the 8-byte header, header mismatch, or a propagated chunk error. -/
inductive PngError where
  | tooShort : PngError
  | badMagic : PngError
  | chunk (e : ChunkError) : PngError
deriving DecidableEq, Repr

/-- `Png` (src/png.rs): an ordered list of chunks. -/
structure Png where
  chunks : List Chunk
deriving DecidableEq, Repr

/-- `Png::STANDAR_HEADER`. -/
def STANDAR_HEADER : List Nat := [137, 80, 78, 71, 13, 10, 26, 10]

/-- The `while let Ok(()) = buf_reader.read_exact(&mut chunk_data_len)`
loop of `TryFrom<&[u8]> for Png`. `read_exact` on the 4-byte length
buffer fails (ending the loop with success) when fewer than 4 bytes
remain; otherwise it consumes 4 bytes. `chunk_buffer` is built with
`Vec::with_capacity(chunk_bytes_len)`, which has length 0, so
`read_exact(&mut chunk_buffer)` reads 0 bytes and always succeeds:
the bytes handed to `Chunk::try_from` are just the 4 length bytes. -/
def pngLoop : List Nat → List Chunk → Except PngError Png
  | b0 :: b1 :: b2 :: b3 :: rest, chunks =>
    let chunk_data_len := [b0, b1, b2, b3]
    let chunk_buffer : List Nat := []
    let chunk_bytes := chunk_data_len ++ chunk_buffer
    match chunkTryFrom chunk_bytes with
    | .error e => .error (.chunk e)
    | .ok c => pngLoop rest (chunks ++ [c])
  | _, chunks => .ok ⟨chunks⟩

/-- `TryFrom<&[u8]> for Png`: checks the length and the 8-byte header,
then runs the chunk-reading loop on the remaining bytes. -/
def pngTryFrom (bytes : List Nat) : Except PngError Png :=
  if bytes.length < 8 then .error .tooShort
  else
    let std_header_bytes := bytes.take 8
    let rest := bytes.drop 8
    if std_header_bytes ≠ STANDAR_HEADER then .error .badMagic
    else pngLoop rest []

def rustBytes : List Nat := [82, 117, 83, 116]

/-- The payload "This is where your secret message will be!" used by the
repository's tests, as bytes. -/
def secretMsg : List Nat :=
  [84, 104, 105, 115, 32, 105, 115, 32, 119, 104, 101, 114, 101, 32, 121,
   111, 117, 114, 32, 115, 101, 99, 114, 101, 116, 32, 109, 101, 115, 115,
   97, 103, 101, 32, 119, 105, 108, 108, 32, 98, 101, 33]

/-- Peel one byte off a `crc32` fold once the single-byte update has
been evaluated. -/
theorem crc32_foldl_step (i b v : Nat) (l : List Nat) (h : crc32Update i b = v) :
    List.foldl crc32Update i (b :: l) = List.foldl crc32Update v l := by
  rw [List.foldl_cons, h]

/-- The CRC-32 of the repository test vector, proved one input byte
at a time to keep every kernel reduction shallow. -/
theorem crcSecret : crc32 (rustBytes ++ secretMsg) = 2882656334 := by
  have hl : rustBytes ++ secretMsg = [82, 117, 83, 116, 84, 104, 105, 115, 32, 105, 115, 32, 119, 104, 101, 114, 101, 32, 121, 111, 117, 114, 32, 115, 101, 99, 114, 101, 116, 32, 109, 101, 115, 115, 97, 103, 101, 32, 119, 105, 108, 108, 32, 98, 101, 33] := by rfl
  unfold crc32
  rw [hl]
  rw [crc32_foldl_step 4294967295 82 2828542122 _ (by decide)]
  rw [crc32_foldl_step 2828542122 117 381966181 _ (by decide)]
  rw [crc32_foldl_step 381966181 83 3484176846 _ (by decide)]
  rw [crc32_foldl_step 3484176846 116 729544387 _ (by decide)]
  rw [crc32_foldl_step 729544387 84 1849720081 _ (by decide)]
  rw [crc32_foldl_step 1849720081 104 699894245 _ (by decide)]
  rw [crc32_foldl_step 699894245 105 3827792002 _ (by decide)]
  rw [crc32_foldl_step 3827792002 115 3395216882 _ (by decide)]
  rw [crc32_foldl_step 3395216882 32 1746398493 _ (by decide)]
  rw [crc32_foldl_step 1746398493 105 1459659464 _ (by decide)]
  rw [crc32_foldl_step 1459659464 115 1558473382 _ (by decide)]
  rw [crc32_foldl_step 1558473382 32 76006015 _ (by decide)]
  rw [crc32_foldl_step 76006015 119 249499632 _ (by decide)]
  rw [crc32_foldl_step 249499632 104 4275750009 _ (by decide)]
  rw [crc32_foldl_step 4275750009 101 352290443 _ (by decide)]
  rw [crc32_foldl_step 352290443 114 3296048446 _ (by decide)]
  rw [crc32_foldl_step 3296048446 101 4236115401 _ (by decide)]
  rw [crc32_foldl_step 4236115401 32 3643418401 _ (by decide)]
  rw [crc32_foldl_step 3643418401 121 1701442529 _ (by decide)]
  rw [crc32_foldl_step 1701442529 111 174442452 _ (by decide)]
  rw [crc32_foldl_step 174442452 117 2715547321 _ (by decide)]
  rw [crc32_foldl_step 2715547321 114 202883278 _ (by decide)]
  rw [crc32_foldl_step 202883278 32 1203689663 _ (by decide)]
  rw [crc32_foldl_step 1203689663 115 2459250755 _ (by decide)]
  rw [crc32_foldl_step 2459250755 101 3533639885 _ (by decide)]
  rw [crc32_foldl_step 3533639885 99 834408959 _ (by decide)]
  rw [crc32_foldl_step 834408959 114 2469938060 _ (by decide)]
  rw [crc32_foldl_step 2469938060 101 3645203103 _ (by decide)]
  rw [crc32_foldl_step 3645203103 116 922844818 _ (by decide)]
  rw [crc32_foldl_step 922844818 32 626578398 _ (by decide)]
  rw [crc32_foldl_step 626578398 109 1380825829 _ (by decide)]
  rw [crc32_foldl_step 1380825829 101 3991588506 _ (by decide)]
  rw [crc32_foldl_step 3991588506 115 3644567570 _ (by decide)]
  rw [crc32_foldl_step 3644567570 115 980183678 _ (by decide)]
  rw [crc32_foldl_step 980183678 97 2368889247 _ (by decide)]
  rw [crc32_foldl_step 2368889247 103 3018541135 _ (by decide)]
  rw [crc32_foldl_step 3018541135 101 3674743454 _ (by decide)]
  rw [crc32_foldl_step 3674743454 32 738367145 _ (by decide)]
  rw [crc32_foldl_step 738367145 119 1632107845 _ (by decide)]
  rw [crc32_foldl_step 1632107845 105 850995998 _ (by decide)]
  rw [crc32_foldl_step 850995998 108 3191449915 _ (by decide)]
  rw [crc32_foldl_step 3191449915 108 4122082814 _ (by decide)]
  rw [crc32_foldl_step 4122082814 32 1637764654 _ (by decide)]
  rw [crc32_foldl_step 1637764654 98 2131465205 _ (by decide)]
  rw [crc32_foldl_step 2131465205 101 4033910999 _ (by decide)]
  rw [crc32_foldl_step 4033910999 33 1412310961 _ (by decide)]
  rw [List.foldl_nil]
  decide


/-- `beBytes` always produces exactly `w` bytes. -/
theorem beBytes_length (w n : Nat) : (beBytes w n).length = w := by
  simp [beBytes]

/-- Decoding a 4-byte big-endian encoding recovers any value below
`2^32`. -/
theorem fromBeBytes_beBytes4 (n : Nat) (h : n < 2 ^ 32) :
    fromBeBytes (beBytes 4 n) = n := by
  have he : beBytes 4 n = [n / 2 ^ 24 % 256, n / 2 ^ 16 % 256,
      n / 2 ^ 8 % 256, n % 256] := by
    simp [beBytes, List.range_succ]
  rw [he]
  simp only [fromBeBytes, List.foldl_cons, List.foldl_nil]
  omega

/-- C1: refuted as stated — the claim asserts `Parse(Serialize(r)) == r`
for every Record with a valid TypeTag, but `Chunk::as_bytes` emits the
payload length as a `usize` (8 bytes big-endian on a 64-bit target)
while `TryFrom<&[u8]>` reads a 4-byte length. Evaluating the code: the
TypeTag "RuSt" is valid, yet parsing the serialization of
`Chunk::new("RuSt", [])` fails (the parser reads length 0 from the first
4 zero bytes, takes the next 4 zero bytes as the type, and then finds 8
trailing bytes where the 4 crc bytes should be). -/
theorem c1_roundtrip_bug :
    ChunkType.is_valid ⟨rustBytes⟩ = true ∧
    chunkTryFrom (Chunk.new ⟨rustBytes⟩ []).as_bytes = .error .sliceLen := by
  decide

/-- C2: refuted as stated — serialization emits the length field on
8 bytes (`usize::to_be_bytes` on a 64-bit target), not 4, so the
serialized form of any Chunk with a 4-byte type is 16 bytes plus the
payload length, not 12. -/
theorem c2_serialize_length_bug (c : Chunk) (h : c.type_.bytes.length = 4) :
    c.as_bytes = beBytes 8 c.data.length ++ (c.type_.bytes ++ (c.data ++ beBytes 4 c.crcFn)) ∧
    c.as_bytes.length = 16 + c.data.length := by
  refine ⟨by simp [Chunk.as_bytes], ?_⟩
  simp [Chunk.as_bytes, beBytes_length, h]
  omega

/-- Witness for `c2_serialize_length_bug` at the Chunk built from type
"RuSt" and the empty payload. -/
theorem c2_serialize_length_bug_witness :
    (Chunk.new ⟨rustBytes⟩ []).as_bytes.length = 16 + (Chunk.new ⟨rustBytes⟩ []).data.length :=
  (c2_serialize_length_bug (Chunk.new ⟨rustBytes⟩ []) (by decide)).2

/-- C3: refuted as stated — `Png::try_from` reads each record body into
`Vec::with_capacity(..)`, whose length is 0, so `read_exact` reads zero
bytes and every record parse sees only the 4 length bytes. The
well-formed one-record envelope below is accepted by `Chunk::try_from`
on its own, yet container parse of header + that record fails; only the
zero-record container parses. -/
theorem c3_container_parse_bug :
    chunkTryFrom (beBytes 4 0 ++ rustBytes ++ beBytes 4 (crc32 rustBytes))
      = .ok ⟨0, ⟨rustBytes⟩, [], crc32 rustBytes⟩ ∧
    pngTryFrom (STANDAR_HEADER ++ beBytes 4 0 ++ rustBytes ++ beBytes 4 (crc32 rustBytes))
      = .error (.chunk .tooShort) ∧
    pngTryFrom STANDAR_HEADER = .ok ⟨[]⟩ := by
  decide

/-- C4: refuted as stated — inputs shorter than 12 bytes do get the
`TooShort` error, but when the declared payload length exceeds the bytes
remaining after the 8-byte prefix, `value.split_at(length)` panics
(modelled by `panicSplitAt`) instead of returning an error: record parse
is not total. The 12-byte input below declares a 5-byte payload with
only 4 bytes remaining. -/
theorem c4_truncation_panic_bug :
    (∀ v : List Nat, v.length < 12 → chunkTryFrom v = .error .tooShort) ∧
    chunkTryFrom [0, 0, 0, 5, 82, 117, 83, 116, 0, 0, 0, 0] = .error .panicSplitAt := by
  refine ⟨?_, by decide⟩
  intro v hv
  unfold chunkTryFrom
  rw [if_pos hv]

/-- Witness for `c4_truncation_panic_bug` on a 3-byte input. -/
theorem c4_truncation_panic_bug_witness :
    chunkTryFrom [0, 0, 0] = .error .tooShort :=
  c4_truncation_panic_bug.1 [0, 0, 0] (by decide)

/-- C5: refuted as stated — `Chunk::new` always succeeds and the
`length()` accessor does return the payload byte count, but the stored
`length` field is set from `type.bytes ++ payload`, i.e. payload length
plus 4, not the payload length the claim (and the parse path) uses. -/
theorem c5_new_length_bug (t : ChunkType) (d : List Nat) (h : t.bytes.length = 4) :
    (Chunk.new t d).length = (4 + d.length) % 2 ^ 32 ∧
    (Chunk.new t d).lengthGetter = d.length % 2 ^ 32 := by
  simp [Chunk.new, Chunk.lengthGetter, h]

/-- Witness for `c5_new_length_bug`: type "RuSt" with a 2-byte payload
stores length 6 while the accessor reports 2. -/
theorem c5_new_length_bug_witness :
    (Chunk.new ⟨rustBytes⟩ [97, 98]).length = 6 ∧
    (Chunk.new ⟨rustBytes⟩ [97, 98]).lengthGetter = 2 :=
  c5_new_length_bug ⟨rustBytes⟩ [97, 98] (by decide)

/-- An ASCII-alphabetic byte is in particular ASCII. -/
theorem u8IsAsciiAlphabetic_ascii (b : Nat) (h : u8IsAsciiAlphabetic b = true) :
    u8IsAscii b = true := by
  simp [u8IsAsciiAlphabetic, u8IsAscii] at *
  omega

/-- C8: string construction of a TypeTag fails with `InvalidLength` on
any byte length other than 4, fails with `InvalidCharacter` on any
4-byte text with a non-alphabetic byte, and succeeds exactly on 4-byte
ASCII-alphabetic texts. -/
theorem c8_from_str_classification (s : List Nat) :
    (s.length ≠ 4 → chunkTypeTryFromString s = .error .invalidLength) ∧
    (s.length = 4 → ¬ (∀ b ∈ s, u8IsAsciiAlphabetic b = true) →
      chunkTypeTryFromString s = .error .invalidCharacter) ∧
    ((∃ t, chunkTypeTryFromString s = .ok t) ↔
      (s.length = 4 ∧ ∀ b ∈ s, u8IsAsciiAlphabetic b = true)) := by
  by_cases h4 : s.length = 4
  · by_cases ha : ∀ b ∈ s, u8IsAsciiAlphabetic b = true
    · have hres : chunkTypeTryFromString s = .ok ⟨s⟩ := by
        unfold chunkTypeTryFromString
        have h1 : (s.length > 4 || s.length < 4) = false := by simp [h4]
        have h2 : s.all u8IsAsciiAlphabetic = true := List.all_eq_true.mpr ha
        rw [h1, h2]
        simp
      refine ⟨fun hc => absurd h4 hc, fun _ hc => absurd ha hc, ?_⟩
      rw [hres]
      exact ⟨fun _ => ⟨h4, ha⟩, fun _ => ⟨⟨s⟩, rfl⟩⟩
    · have hres : chunkTypeTryFromString s = .error .invalidCharacter := by
        unfold chunkTypeTryFromString
        have h1 : (s.length > 4 || s.length < 4) = false := by simp [h4]
        have h2 : s.all u8IsAsciiAlphabetic = false := by
          rw [Bool.eq_false_iff]
          intro hc
          exact ha (List.all_eq_true.mp hc)
        rw [h1, h2]
        simp
      refine ⟨fun hc => absurd h4 hc, fun _ _ => hres, ?_⟩
      rw [hres]
      constructor
      · rintro ⟨t, ht⟩
        simp at ht
      · rintro ⟨_, hc⟩
        exact absurd hc ha
  · have hres : chunkTypeTryFromString s = .error .invalidLength := by
      unfold chunkTypeTryFromString
      have h1 : (s.length > 4 || s.length < 4) = true := by
        simp only [Bool.or_eq_true, decide_eq_true_eq, gt_iff_lt]
        omega
      rw [h1]
      simp
    refine ⟨fun _ => hres, fun hc => absurd hc h4, ?_⟩
    rw [hres]
    constructor
    · rintro ⟨t, ht⟩
      simp at ht
    · rintro ⟨hc, _⟩
      exact absurd hc h4

/-- Witness for `c8_from_str_classification` on "RuS" (too short),
"Ru1t" (digit), and "RuSt" (accepted). -/
theorem c8_from_str_classification_witness :
    chunkTypeTryFromString [82, 117, 83] = .error .invalidLength ∧
    chunkTypeTryFromString [82, 117, 49, 116] = .error .invalidCharacter ∧
    (∃ t, chunkTypeTryFromString [82, 117, 83, 116] = .ok t) :=
  ⟨(c8_from_str_classification [82, 117, 83]).1 (by decide),
   (c8_from_str_classification [82, 117, 49, 116]).2.1 (by decide) (by decide),
   (c8_from_str_classification [82, 117, 83, 116]).2.2.mpr ⟨by decide, by decide⟩⟩

/-- C9: refuted as stated — `TryFrom<[u8; 4]>` accepts any ASCII bytes
(only `is_ascii` is checked), so the tag "0000" is constructible and
formats successfully, yet string construction from that text fails with
`InvalidCharacter`: the round-trip does not hold for every successfully
constructed TypeTag. -/
theorem c9_roundtrip_counterexample :
    chunkTypeTryFromBytes [48, 48, 48, 48] = .ok ⟨[48, 48, 48, 48]⟩ ∧
    chunkTypeDisplay ⟨[48, 48, 48, 48]⟩ = some [48, 48, 48, 48] ∧
    chunkTypeTryFromString [48, 48, 48, 48] = .error .invalidCharacter := by
  decide

/-- C9 (amended): formatting succeeds for every successfully constructed
TypeTag (both constructors), and the format/parse round-trip holds for
every TypeTag built from a 4-character string — but only formatting, not
the round-trip, is guaranteed for byte-array-constructed tags. -/
theorem c9_roundtrip_amended (t : ChunkType) :
    (∀ v, chunkTypeTryFromBytes v = .ok t → chunkTypeDisplay t = some t.bytes) ∧
    (∀ v, chunkTypeTryFromString v = .ok t →
      chunkTypeDisplay t = some t.bytes ∧ chunkTypeTryFromString t.bytes = .ok t) := by
  constructor
  · intro v h
    unfold chunkTypeTryFromBytes at h
    by_cases h1 : v.all u8IsAscii = true
    · rw [if_pos h1] at h
      cases h
      unfold chunkTypeDisplay
      rw [if_pos h1]
    · rw [if_neg h1] at h
      simp at h
  · intro v h
    unfold chunkTypeTryFromString at h
    by_cases h1 : (v.length > 4 || v.length < 4) = true
    · rw [if_pos h1] at h
      simp at h
    · rw [if_neg h1] at h
      by_cases h2 : v.all u8IsAsciiAlphabetic = true
      · rw [if_pos h2] at h
        cases h
        have hascii : v.all u8IsAscii = true := by
          simp only [List.all_eq_true] at h2 ⊢
          exact fun b hb => u8IsAsciiAlphabetic_ascii b (h2 b hb)
        constructor
        · unfold chunkTypeDisplay
          rw [if_pos hascii]
        · show chunkTypeTryFromString v = .ok ⟨v⟩
          unfold chunkTypeTryFromString
          rw [if_neg h1, if_pos h2]
      · rw [if_neg h2] at h
        simp at h

/-- Witness for `c9_roundtrip_amended` at the string-constructed tag
"RuSt". -/
theorem c9_roundtrip_amended_witness :
    chunkTypeDisplay ⟨[82, 117, 83, 116]⟩ = some [82, 117, 83, 116] ∧
    chunkTypeTryFromString [82, 117, 83, 116] = .ok ⟨[82, 117, 83, 116]⟩ :=
  (c9_roundtrip_amended ⟨[82, 117, 83, 116]⟩).2 [82, 117, 83, 116] (by decide)

/-- The code's `(b >> 5) & 1 == 0` test is exactly "the `0x20` bit of
`b` is clear". -/
theorem fifthBit_eq_zero_iff (b : Nat) : fifthBit b = 0 ↔ b &&& 32 = 0 := by
  have h1 : fifthBit b = b / 32 % 2 := by
    unfold fifthBit
    rw [Nat.shiftRight_eq_div_pow, Nat.and_one_is_mod]
  have h2 : b &&& 32 = (b.testBit 5).toNat * 32 := Nat.and_two_pow b 5
  rw [Nat.testBit_to_div_mod] at h2
  rw [h1, h2]
  by_cases hb : b / 2 ^ 5 % 2 = 1 <;> simp [hb]

/-- C10: the four property flags test exactly the `0x20` bit of their
byte (clear for `critical`, `public` and `reserved-bit-valid`, set for
`safe-to-copy`), and `valid` holds iff all four bytes are ASCII and the
reserved bit test passes. -/
theorem c10_property_bits (t : ChunkType) :
    (t.is_critical = true ↔ t.bytes.getD 0 0 &&& 32 = 0) ∧
    (t.is_public = true ↔ t.bytes.getD 1 0 &&& 32 = 0) ∧
    (t.is_reserved_bit_valid = true ↔ t.bytes.getD 2 0 &&& 32 = 0) ∧
    (t.is_safe_to_copy = true ↔ ¬ t.bytes.getD 3 0 &&& 32 = 0) ∧
    (t.is_valid = true ↔ ((∀ b ∈ t.bytes, b ≤ 127) ∧ t.bytes.getD 2 0 &&& 32 = 0)) := by
  have hb5 : ∀ b : Nat, (fifthBit b == 0) = true ↔ b &&& 32 = 0 := by
    intro b
    rw [beq_iff_eq]
    exact fifthBit_eq_zero_iff b
  refine ⟨hb5 _, hb5 _, hb5 _, ?_, ?_⟩
  · unfold ChunkType.is_safe_to_copy
    rw [beq_iff_eq]
    have := fifthBit_eq_zero_iff (t.bytes.getD 3 0)
    have hle : fifthBit (t.bytes.getD 3 0) ≤ 1 := by
      unfold fifthBit
      rw [Nat.and_one_is_mod]
      omega
    omega
  · unfold ChunkType.is_valid
    rw [Bool.and_eq_true, List.all_eq_true]
    constructor
    · rintro ⟨hall, hres⟩
      exact ⟨fun b hb => by simpa [u8IsAscii] using hall b hb, (hb5 _).mp hres⟩
    · rintro ⟨hall, hres⟩
      exact ⟨fun b hb => by simpa [u8IsAscii] using hall b hb, (hb5 _).mpr hres⟩

/-- Record parse on a well-formed envelope with a valid type: it reaches
the checksum comparison and returns the parsed record when the stored
checksum matches the recomputed CRC-32, and `crcMismatch` with the
stored (expected) and recomputed (actual) values otherwise. -/
theorem chunkTryFrom_envelope (tb payload : List Nat) (crcN : Nat)
    (htb : tb.length = 4) (hv : ChunkType.is_valid ⟨tb⟩ = true)
    (hlen : payload.length < 2 ^ 32) (hcrc : crcN < 2 ^ 32) :
    chunkTryFrom (beBytes 4 payload.length ++ (tb ++ (payload ++ beBytes 4 crcN))) =
      if crcN = crc32 (tb ++ payload)
      then .ok ⟨payload.length, ⟨tb⟩, payload, crcN⟩
      else .error (.crcMismatch crcN (crc32 (tb ++ payload))) := by
  have hA : (beBytes 4 payload.length).length = 4 := beBytes_length 4 _
  have hC : (beBytes 4 crcN).length = 4 := beBytes_length 4 _
  have hascii : tb.all u8IsAscii = true := by
    simp only [ChunkType.is_valid, Bool.and_eq_true] at hv
    exact hv.1
  have h1 : chunkTypeTryFromBytes tb = .ok ⟨tb⟩ := by
    unfold chunkTypeTryFromBytes
    rw [if_pos hascii]
  unfold chunkTryFrom
  dsimp only
  rw [if_neg (by simp [hA, hC, htb]; omega)]
  rw [List.take_left' hA, List.drop_left' hA]
  rw [List.take_left' htb, List.drop_left' htb]
  rw [h1]
  simp only [hv, Bool.not_true, Bool.false_eq_true, if_false]
  rw [fromBeBytes_beBytes4 _ hlen]
  rw [if_neg (by simp [hC])]
  rw [List.take_left, List.drop_left]
  rw [if_neg (by simp [hC])]
  rw [fromBeBytes_beBytes4 _ hcrc]
  by_cases h : crcN = crc32 (tb ++ payload)
  · rw [if_neg (by simpa using h), if_pos h]
  · rw [if_pos h, if_neg h]

/-- C6: on a well-formed envelope with a valid type, parse fails with
`crcMismatch` exactly when the stored 4-byte checksum differs from the
CRC-32 recomputed over the type bytes followed by the payload, the error
carries expected (stored) and actual (recomputed) values, and the
recomputed checksum for type "RuSt" with payload "This is where your
secret message will be!" equals 2882656334. -/
theorem c6_checksum_gate (tb payload : List Nat) (crcN : Nat)
    (htb : tb.length = 4) (hv : ChunkType.is_valid ⟨tb⟩ = true)
    (hlen : payload.length < 2 ^ 32) (hcrc : crcN < 2 ^ 32) :
    ((∃ e a, chunkTryFrom (beBytes 4 payload.length ++ (tb ++ (payload ++ beBytes 4 crcN)))
        = .error (.crcMismatch e a)) ↔ crcN ≠ crc32 (tb ++ payload)) ∧
    (crcN ≠ crc32 (tb ++ payload) →
      chunkTryFrom (beBytes 4 payload.length ++ (tb ++ (payload ++ beBytes 4 crcN)))
        = .error (.crcMismatch crcN (crc32 (tb ++ payload)))) ∧
    crc32 (rustBytes ++ secretMsg) = 2882656334 := by
  rw [chunkTryFrom_envelope tb payload crcN htb hv hlen hcrc]
  refine ⟨?_, ?_, crcSecret⟩
  · by_cases h : crcN = crc32 (tb ++ payload)
    · rw [if_pos h]
      constructor
      · rintro ⟨e, a, he⟩
        simp at he
      · intro hc
        exact absurd h hc
    · rw [if_neg h]
      exact ⟨fun _ => h, fun _ => ⟨crcN, crc32 (tb ++ payload), rfl⟩⟩
  · intro h
    rw [if_neg h]

/-- Witness for `c6_checksum_gate`: type "RuSt", empty payload, stored
checksum 0 (wrong) gives a `crcMismatch` carrying 0 and the recomputed
value. -/
theorem c6_checksum_gate_witness :
    chunkTryFrom (beBytes 4 (0 : Nat) ++ (rustBytes ++ (([] : List Nat) ++ beBytes 4 0)))
      = .error (.crcMismatch 0 (crc32 (rustBytes ++ ([] : List Nat)))) :=
  (c6_checksum_gate rustBytes [] 0 (by decide) (by decide) (by decide) (by decide)).2.1
    (by decide)

/-- When fewer than 4 bytes remain, `read_exact` on the length buffer
fails and the chunk loop ends with success, keeping the chunks read so
far and discarding the leftover bytes. -/
theorem pngLoop_short (rest : List Nat) (chunks : List Chunk) (h : rest.length < 4) :
    pngLoop rest chunks = .ok ⟨chunks⟩ := by
  match rest with
  | [] => rfl
  | [_] => rfl
  | [_, _] => rfl
  | [_, _, _] => rfl
  | _ :: _ :: _ :: _ :: _ =>
    simp only [List.length_cons] at h
    omega

/-- With at least 4 bytes remaining the loop reads a length field and
attempts a record parse on the bytes it gathered — which, because the
record body is read into a zero-length buffer, are just those 4 bytes,
so the attempt always fails with `tooShort`. -/
theorem pngLoop_long (rest : List Nat) (chunks : List Chunk) (h : 4 ≤ rest.length) :
    pngLoop rest chunks = .error (.chunk .tooShort) := by
  match rest with
  | a :: b :: c :: d :: t =>
    have hc : chunkTryFrom [a, b, c, d] = .error .tooShort := by
      unfold chunkTryFrom
      rw [if_pos (by simp)]
    simp [pngLoop, hc]
  | [] => simp at h
  | [_] => simp at h
  | [_, _] => simp at h
  | [_, _, _] => simp at h

/-- Container parse on a buffer starting with the standard header hands
the remaining bytes to the chunk loop. -/
theorem pngTryFrom_header (rest : List Nat) :
    pngTryFrom (STANDAR_HEADER ++ rest) = pngLoop rest [] := by
  have hlen8 : STANDAR_HEADER.length = 8 := rfl
  unfold pngTryFrom
  rw [if_neg (by simp [STANDAR_HEADER])]
  rw [List.take_left' hlen8, List.drop_left' hlen8]
  rw [if_neg (fun hc => hc rfl)]

/-- C7 (amended): after the header and any fully parsed records, the
chunk loop stops with success exactly when fewer than 4 bytes remain
(up to 3 trailing bytes are silently discarded, not an error); whenever
at least 4 bytes remain, a record parse is attempted and its failure
propagates as a container-level error. -/
theorem c7_stop_condition (rest : List Nat) (chunks : List Chunk) :
    (rest.length < 4 → pngLoop rest chunks = .ok ⟨chunks⟩) ∧
    (4 ≤ rest.length → pngLoop rest chunks = .error (.chunk .tooShort)) ∧
    pngTryFrom (STANDAR_HEADER ++ rest) = pngLoop rest [] ∧
    ((∃ p, pngTryFrom (STANDAR_HEADER ++ rest) = .ok p) ↔ rest.length < 4) := by
  refine ⟨pngLoop_short rest chunks, pngLoop_long rest chunks, pngTryFrom_header rest, ?_⟩
  rw [pngTryFrom_header rest]
  by_cases h : rest.length < 4
  · rw [pngLoop_short rest [] h]
    exact ⟨fun _ => h, fun _ => ⟨⟨[]⟩, rfl⟩⟩
  · rw [pngLoop_long rest [] (by omega)]
    constructor
    · rintro ⟨p, hp⟩
      simp at hp
    · intro hc
      exact absurd hc h

/-- Witness for `c7_stop_condition`: one leftover byte is accepted, a
4-byte leftover makes the (always-failing) record parse propagate. -/
theorem c7_stop_condition_witness :
    pngLoop [0] [] = .ok ⟨[]⟩ ∧ pngLoop [0, 0, 0, 0] [] = .error (.chunk .tooShort) :=
  ⟨(c7_stop_condition [0] []).1 (by decide),
   (c7_stop_condition [0, 0, 0, 0] []).2.1 (by decide)⟩

/-- C7: refuted as stated — a container consisting of the 8-byte header
followed by a single leftover byte (too few bytes to form a length
field) parses successfully instead of failing. -/
theorem c7_trailing_byte_counterexample :
    pngTryFrom (STANDAR_HEADER ++ [0]) = .ok ⟨[]⟩ ∧
    (STANDAR_HEADER ++ [0]).length = 9 := by
  decide
